import Mathlib

/-!
# Verification of the PynBall environment (`src/pynball/pynball_env.py`)

Shallow embedding of the Pinball reinforcement-learning environment.
The orchestrator (`PynBall.__init__`, `reset`, `terminal`, `step`,
`check_bounds` and the module constants `ACTION_DICT`, `THRUST_PENALTY`,
`NOP_PENALTY`) is translated from `src/pynball/pynball_env.py`.

The leaf modules `pynball.point`, `pynball.ball`,
`pynball.polygon_obstacle` and `pynball.target` are imported by the
environment but their files are not part of the available sources; their
operations are modelled from the specification (spec sections 4.1-4.3).
Python floats are modelled as exact rationals (`ℚ`); distance comparisons
are carried out on squared distances, which is equivalent over exact
arithmetic and keeps every definition executable.

`PynBall.step` additionally returns a trace of the side-effecting calls it
performs on the ball (impulse, kinematic substeps, reflections, bonus
steps, velocity reversals, drag), in the order the Python code performs
them, so that claims about call order and multiplicity are statable.
-/

set_option synthInstance.maxSize 4096

namespace PynBallEnv

/-- Modelled from the spec: `pynball.point.Point` (spec §2 "Vector2"), an
immutable 2D point/vector value with rational coordinates. -/
structure Point where
  x : ℚ
  y : ℚ
deriving DecidableEq, Repr

instance : Inhabited Point := ⟨⟨0, 0⟩⟩

/-- Modelled from the spec: `pynball.ball.Ball` (spec §3, §4.1), a mutable
kinematic body with position, velocity and radius. -/
structure Ball where
  x : ℚ
  y : ℚ
  xdot : ℚ
  ydot : ℚ
  radius : ℚ
deriving DecidableEq, Repr

/-- Modelled from the spec: the thrust impulse constant `k` of
`Ball.add_impulse` (spec §4.1).  Spec §9 flags the exact value as an open
calibration parameter not visible in the available sources; the claims do
not depend on its value, so we fix the commonly used `1/5`. -/
def thrust_k : ℚ := 1 / 5

/-- Modelled from the spec: `Ball.add_impulse(dx, dy)` adds the action's
unit direction scaled by the thrust constant to the velocity (spec §4.1). -/
def Ball.add_impulse (b : Ball) (dx dy : ℚ) : Ball :=
  { b with xdot := b.xdot + dx * thrust_k, ydot := b.ydot + dy * thrust_k }

/-- Modelled from the spec: `Ball.step(substeps)` integrates position by
one substep's worth of the full unit-time displacement,
`x += xdot / substeps`, `y += ydot / substeps` (spec §4.1); the velocity is
unchanged. -/
def Ball.stepSub (b : Ball) (substeps : ℕ) : Ball :=
  { b with x := b.x + b.xdot / (substeps : ℚ), y := b.y + b.ydot / (substeps : ℚ) }

/-- Modelled from the spec: `Ball.step()` with no substep argument
performs one full-displacement step, `x += xdot`, `y += ydot`
(spec §4.1); used as the post-collision "bonus" step. -/
def Ball.stepFull (b : Ball) : Ball :=
  { b with x := b.x + b.xdot, y := b.y + b.ydot }

/-- Modelled from the spec: `Ball.set_velocity(v)` overwrites
`(xdot, ydot)` (spec §4.1). -/
def Ball.set_velocity (b : Ball) (v : Point) : Ball :=
  { b with xdot := v.x, ydot := v.y }

/-- Modelled from the spec: `Ball.add_drag(d)` multiplies `(xdot, ydot)`
by `(1 - d)` (spec §4.1). -/
def Ball.add_drag (b : Ball) (d : ℚ) : Ball :=
  { b with xdot := b.xdot * (1 - d), ydot := b.ydot * (1 - d) }

/-- Modelled from the spec: `Ball.get_center()` returns the current
position as a point (spec §4.1). -/
def Ball.get_center (b : Ball) : Point := ⟨b.x, b.y⟩

/-- Squared distance between two points. -/
def distSq (p q : Point) : ℚ := (p.x - q.x) ^ 2 + (p.y - q.y) ^ 2

/-- Modelled from the spec: squared point-to-segment distance (spec §4.2):
project the center `c` onto the infinite line through the edge `a`-`b`,
clamp the projection parameter to `[0,1]` to stay on the segment, and
measure the squared Euclidean distance from `c` to the clamped point.
Squared distances replace the spec's distances, equivalently, to stay in
`ℚ`. -/
def segDistSq (a b c : Point) : ℚ :=
  let abx := b.x - a.x
  let aby := b.y - a.y
  let len2 := abx ^ 2 + aby ^ 2
  if len2 = 0 then distSq a c
  else
    let t := max 0 (min 1 (((c.x - a.x) * abx + (c.y - a.y) * aby) / len2))
    distSq ⟨a.x + t * abx, a.y + t * aby⟩ c

/-- Modelled from the spec: `pynball.polygon_obstacle.PolygonObstacle`
(spec §3, §4.2), a closed convex polygon given by its ordered vertices,
consecutive points defining edges, the last point implicitly connecting to
the first. -/
structure PolygonObstacle where
  points : List Point
deriving DecidableEq, Repr

/-- The edge list of a polygon: consecutive vertex pairs, closing back to
the first vertex. -/
def PolygonObstacle.edges (o : PolygonObstacle) : List (Point × Point) :=
  match o.points with
  | [] => []
  | p :: ps => o.points.zip (ps ++ [p])

/-- Modelled from the spec: `PolygonObstacle.collision(ball)` is true when
the minimum distance from the ball's center to any edge segment is less
than the ball's radius (spec §4.2), compared here on squares. -/
def PolygonObstacle.collision (o : PolygonObstacle) (b : Ball) : Bool :=
  o.edges.any fun e => segDistSq e.1 e.2 b.get_center < b.radius ^ 2

/-- The edge of `o` nearest the point `c` (by point-to-segment distance),
scanning edges in order and keeping the strictly nearer one. -/
def PolygonObstacle.nearestEdge (o : PolygonObstacle) (c : Point) :
    Option (Point × Point) :=
  o.edges.foldl
    (fun acc e =>
      match acc with
      | none => some e
      | some e0 => if segDistSq e.1 e.2 c < segDistSq e0.1 e0.2 c then some e else some e0)
    none

/-- Reflection of the velocity `v` off the edge `a`-`b`:
`v' = v - 2 (v·n) n` for the unit normal `n` of the edge (spec §4.2),
computed equivalently with the unnormalized normal `m` as
`v - (2 (v·m) / (m·m)) m`, which avoids square roots. -/
def reflectOff (a b v : Point) : Point :=
  let mx := -(b.y - a.y)
  let my := b.x - a.x
  let m2 := mx ^ 2 + my ^ 2
  if m2 = 0 then ⟨-v.x, -v.y⟩
  else
    let c := 2 * (v.x * mx + v.y * my) / m2
    ⟨v.x - c * mx, v.y - c * my⟩

/-- Modelled from the spec: `PolygonObstacle.collision_effect(ball)`
returns the ball's velocity after reflecting off the edge nearest the
ball's center (spec §4.2).  Spec §9 notes the vertex-normal-averaging
formula is not visible in the available sources; the nearest-edge
reflection is used for every nearest feature. -/
def PolygonObstacle.collision_effect (o : PolygonObstacle) (b : Ball) : Point :=
  match o.nearestEdge b.get_center with
  | some e => reflectOff e.1 e.2 ⟨b.xdot, b.ydot⟩
  | none => ⟨-b.xdot, -b.ydot⟩

/-- Modelled from the spec: `pynball.target.Target` (spec §3, §4.3), a
circular goal region. -/
structure Target where
  point : Point
  radius : ℚ
deriving DecidableEq, Repr

/-- Modelled from the spec: `Target.collision(ball)` is true when the
Euclidean distance between ball center and target center is less than the
sum of the two radii (spec §4.3), compared here on squares. -/
def Target.collision (t : Target) (b : Ball) : Bool :=
  distSq b.get_center t.point < (t.radius + b.radius) ^ 2

/-- The configuration document consumed by `PynBall.__init__` (spec §6):
seed, substep count, drag, obstacle polygons, target location and radius,
candidate ball starts and ball radius. -/
structure Config where
  seed : ℕ
  step_duration : ℕ
  drag : ℚ
  obstacles : List PolygonObstacle
  target : Target
  ball_starts : List Point
  ball_radius : ℚ
deriving DecidableEq, Repr

/-- The module constant `ACTION_DICT` from `pynball_env.py`: the fixed lookup from discrete
actions `0..4` to impulse directions; any other key has no entry (a Python
`KeyError`). -/
def ACTION_DICT (a : ℤ) : Option (ℚ × ℚ) :=
  if a = 0 then some (1, 0)
  else if a = 1 then some (0, 1)
  else if a = 2 then some (-1, 0)
  else if a = 3 then some (0, -1)
  else if a = 4 then some (0, 0)
  else none

/-- The module constant `THRUST_PENALTY` from `pynball_env.py`. -/
def THRUST_PENALTY : ℚ := -5

/-- The module constant `NOP_PENALTY` from `pynball_env.py`. -/
def NOP_PENALTY : ℚ := -1

instance instDecEqExcept {ε : Type u} {α : Type v} [DecidableEq ε] [DecidableEq α] :
    DecidableEq (Except ε α)
  | Except.ok a, Except.ok b =>
    if h : a = b then isTrue (congrArg Except.ok h)
    else isFalse fun hc => h (Except.ok.inj hc)
  | Except.ok _, Except.error _ => isFalse fun hc => Except.noConfusion hc
  | Except.error _, Except.ok _ => isFalse fun hc => Except.noConfusion hc
  | Except.error e, Except.error f =>
    if h : e = f then isTrue (congrArg Except.error h)
    else isFalse fun hc => h (Except.error.inj hc)

/-- The environment object of `pynball_env.PynBall`: configuration,
cached `step_duration` and `drag`, obstacle list, target, reset flag and
optional ball, plus the state of the (spec-modelled) RNG used by `reset`. -/
structure PynBall where
  config : Config
  step_duration : ℕ
  drag : ℚ
  obstacles : List PolygonObstacle
  target : Target
  reset_flag : Bool
  ball : Option Ball
  rng : ℕ
deriving DecidableEq, Repr

/-- Modelled from the spec: the process RNG seeded by
`random.seed(config["seed"])` and consumed by `random.choice` in `reset`
(spec §8 Determinism, §9).  Python's seeded generator is a deterministic
function of the seed; we model start selection as a deterministic choice
from the list driven by a natural-number generator state. -/
def rngChoice (s : ℕ) (l : List Point) : Point × ℕ :=
  (l.getD (s % l.length) default, s + 1)

/-- The constructor `PynBall.__init__` from `pynball_env.py`: stores the configuration,
seeds the RNG, caches `step_duration` and `drag`, builds obstacles and
target, and starts with `reset_flag = False` and no ball. -/
def PynBall.init (cfg : Config) : PynBall :=
  { config := cfg
    step_duration := cfg.step_duration
    drag := cfg.drag
    obstacles := cfg.obstacles
    target := cfg.target
    reset_flag := false
    ball := none
    rng := cfg.seed }

/-- The method `PynBall.reset` from `pynball_env.py`: installs the supplied ball, or
a zero-velocity ball at an RNG-chosen start from the configuration; sets
`reset_flag`; returns the state tuple `(x, y, xdot, ydot)`. -/
def PynBall.reset (env : PynBall) (starting_ball : Option Ball) :
    PynBall × (ℚ × ℚ × ℚ × ℚ) :=
  match starting_ball with
  | none =>
    let pr := rngChoice env.rng env.config.ball_starts
    let b : Ball :=
      { x := pr.1.x, y := pr.1.y, xdot := 0, ydot := 0, radius := env.config.ball_radius }
    ({ env with ball := some b, reset_flag := true, rng := pr.2 },
      (b.x, b.y, b.xdot, b.ydot))
  | some b =>
    ({ env with ball := some b, reset_flag := true }, (b.x, b.y, b.xdot, b.ydot))

/-- The side-effecting ball operations `PynBall.step` performs, recorded
in call order: the action impulse, the kinematic substep `i`, the
reflection (`set_velocity` of a `collision_effect`) in substep `i`, the
bonus full step in substep `i`, the multi-collision velocity reversal in
substep `i`, and the drag application. -/
inductive Ev where
  | impulse (dx dy : ℚ)
  | ballStep (i : ℕ)
  | reflect (i : ℕ)
  | bonusStep (i : ℕ)
  | reverse (i : ℕ)
  | dragApplied
deriving DecidableEq, Repr

/-- The ways a `PynBall.step` call can raise instead of returning: the
`assert self.reset_flag` failure, a `KeyError` from `ACTION_DICT[action]`,
an attribute access on a missing ball, and the `RuntimeError` from
`check_bounds`. -/
inductive StepError where
  | notReset
  | badAction
  | noBall
  | outOfBounds
deriving DecidableEq, Repr

/-- The mutable state threaded through the substep loop of
`PynBall.step`: the ball, the `reset_flag`, the local `terminal` flag, and
the event trace accumulated so far. -/
structure SubState where
  ball : Ball
  reset_flag : Bool
  terminal : Bool
  trace : List Ev
deriving DecidableEq, Repr

/-- The obstacle scan of one substep (`pynball_env.py` lines 124-127):
fold over the obstacles counting collisions, remembering the last
colliding obstacle as `collidor`. -/
def countCollisions (obs : List PolygonObstacle) (b : Ball) :
    ℕ × Option PolygonObstacle :=
  obs.foldl (fun acc o => if o.collision b then (acc.1 + 1, some o) else acc) (0, none)

/-- The collision dispatch of one substep (`pynball_env.py` lines
129-138): exactly one collision applies the collidor's `collision_effect`
and, on the final substep (`i = step_duration - 1`), one bonus full step;
more than one collision reverses the velocity; the returned list records
the ball operations performed. -/
def resolveCollisions (obs : List PolygonObstacle) (D i : ℕ) (b1 : Ball) :
    Ball × List Ev :=
  let nc := countCollisions obs b1
  if nc.1 = 1 then
    match nc.2 with
    | some c =>
      let b2 := b1.set_velocity (c.collision_effect b1)
      if i = D - 1 then (b2.stepFull, [Ev.reflect i, Ev.bonusStep i])
      else (b2, [Ev.reflect i])
    | none => (b1, [])
  else if 1 < nc.1 then
    (b1.set_velocity ⟨-b1.xdot, -b1.ydot⟩, [Ev.reverse i])
  else (b1, [])

/-- One iteration of the substep loop of `PynBall.step` (`pynball_env.py`
lines 119-143): advance the ball by `1/step_duration` of a step, scan
obstacles and resolve collisions, then test the target; a target hit sets
`terminal` and clears `reset_flag`. -/
def substep (obs : List PolygonObstacle) (tgt : Target) (D i : ℕ)
    (s : SubState) : SubState :=
  let b1 := s.ball.stepSub D
  let be := resolveCollisions obs D i b1
  let term := tgt.collision be.1
  { ball := be.1
    reset_flag := if term then false else s.reset_flag
    terminal := term
    trace := s.trace ++ (Ev.ballStep i :: be.2) }

/-- The substep loop `for i in range(step_duration)` of `PynBall.step`,
with the early `break` on a terminal target hit; `fuel` counts the
remaining iterations and `i` is the current loop index. -/
def runSubsteps (obs : List PolygonObstacle) (tgt : Target) (D : ℕ) :
    ℕ → ℕ → SubState → SubState
  | 0, _, s => s
  | n + 1, i, s =>
    let s1 := substep obs tgt D i s
    if s1.terminal = true then s1 else runSubsteps obs tgt D n (i + 1) s1

/-- The check of `PynBall.check_bounds` as a predicate: the ball center lies strictly
inside the open unit square (`pynball_env.py` lines 150-158). -/
def inBounds (p : Point) : Bool :=
  decide (0 < p.x) && decide (p.x < 1) && decide (0 < p.y) && decide (p.y < 1)

/-- The method `PynBall.step` from `pynball_env.py` (lines 99-148): assert the reset
flag, look the action up in `ACTION_DICT`, fix the reward, apply the
impulse, run the substep loop, apply drag once, check bounds, and return
the state tuple, reward and terminal flag.  The returned environment is
the object state at return or raise time, the event list the trace of
ball operations performed, and the `Except` value the normal result or
the raised error. -/
def PynBall.step (env : PynBall) (action : ℤ) :
    PynBall × List Ev × Except StepError ((ℚ × ℚ × ℚ × ℚ) × ℚ × Bool) :=
  if env.reset_flag = true then
    match ACTION_DICT action, env.ball with
    | some imp, some b0 =>
      let reward := if action = 4 then NOP_PENALTY else THRUST_PENALTY
      let b1 := b0.add_impulse imp.1 imp.2
      let s1 := runSubsteps env.obstacles env.target env.step_duration
        env.step_duration 0
        { ball := b1, reset_flag := env.reset_flag, terminal := false,
          trace := [Ev.impulse imp.1 imp.2] }
      let b2 := s1.ball.add_drag env.drag
      let env1 := { env with ball := some b2, reset_flag := s1.reset_flag }
      let tr := s1.trace ++ [Ev.dragApplied]
      if inBounds b2.get_center then
        (env1, tr, Except.ok ((b2.x, b2.y, b2.xdot, b2.ydot), reward, s1.terminal))
      else
        (env1, tr, Except.error StepError.outOfBounds)
    | none, _ => (env, [], Except.error StepError.badAction)
    | some _, none => (env, [], Except.error StepError.noBall)
  else (env, [], Except.error StepError.notReset)

/-- A whole episode for the determinism property: construct the
environment from a configuration, `reset`, then run the action sequence,
collecting every step's trace and result. -/
def runSteps : PynBall → List ℤ → List (List Ev × Except StepError ((ℚ × ℚ × ℚ × ℚ) × ℚ × Bool))
  | _, [] => []
  | env, a :: as =>
    let r := env.step a
    (r.2.1, r.2.2) :: runSteps r.1 as

/-- Construct from a configuration, reset, and run the action sequence;
returns the reset state and the per-step outputs. -/
def runEpisode (cfg : Config) (acts : List ℤ) :
    (ℚ × ℚ × ℚ × ℚ) × List (List Ev × Except StepError ((ℚ × ℚ × ℚ × ℚ) × ℚ × Bool)) :=
  let er := (PynBall.init cfg).reset none
  (er.2, runSteps er.1 acts)

/-! ## Trace helpers -/

/-- The loop indices of the kinematic substeps recorded in a trace. -/
def ballIdx (tr : List Ev) : List ℕ :=
  tr.filterMap fun e =>
    match e with
    | Ev.ballStep i => some i
    | _ => none

/-- Whether an event is one of the per-substep ball operations (kinematic
substep, reflection, bonus step or reversal), as opposed to the
once-per-step impulse and drag events. -/
def isLoopEv : Ev → Bool
  | Ev.ballStep _ => true
  | Ev.reflect _ => true
  | Ev.bonusStep _ => true
  | Ev.reverse _ => true
  | _ => false

/-- Whether an event is an impulse application. -/
def isImpulseEv : Ev → Bool
  | Ev.impulse _ _ => true
  | _ => false

/-- The result of the substep loop performed inside a valid `step` call
(named so the step-level lemmas can refer to its components). -/
def loopOut (env : PynBall) (imp : ℚ × ℚ) (b0 : Ball) : SubState :=
  runSubsteps env.obstacles env.target env.step_duration env.step_duration 0
    { ball := b0.add_impulse imp.1 imp.2, reset_flag := env.reset_flag,
      terminal := false, trace := [Ev.impulse imp.1 imp.2] }

/-! ## Concrete fixtures for witnesses -/

/-- An obstacle-free configuration: target far from the single start. -/
def cfgFree : Config :=
  { seed := 0
    step_duration := 2
    drag := 0
    obstacles := []
    target := { point := ⟨mkRat 9 10, mkRat 9 10⟩, radius := mkRat 1 100 }
    ball_starts := [⟨mkRat 1 2, mkRat 1 2⟩]
    ball_radius := mkRat 1 100 }

/-- The obstacle-free environment after `reset`. -/
def envFree : PynBall := ((PynBall.init cfgFree).reset none).1

/-- A configuration whose single start already overlaps the target. -/
def cfgHit : Config :=
  { seed := 0
    step_duration := 3
    drag := 0
    obstacles := []
    target := { point := ⟨mkRat 1 2, mkRat 1 2⟩, radius := mkRat 1 10 }
    ball_starts := [⟨mkRat 1 2, mkRat 1 2⟩]
    ball_radius := mkRat 1 100 }

/-- The start-on-target environment after `reset`. -/
def envHit : PynBall := ((PynBall.init cfgHit).reset none).1

/-- A square obstacle just above the playfield center. -/
def sqAbove : PolygonObstacle :=
  ⟨[⟨mkRat 2 5, mkRat 3 5⟩, ⟨mkRat 3 5, mkRat 3 5⟩, ⟨mkRat 3 5, mkRat 7 10⟩,
    ⟨mkRat 2 5, mkRat 7 10⟩]⟩

/-- A square obstacle just below the playfield center. -/
def sqBelow : PolygonObstacle :=
  ⟨[⟨mkRat 2 5, mkRat 3 10⟩, ⟨mkRat 3 5, mkRat 3 10⟩, ⟨mkRat 3 5, mkRat 2 5⟩,
    ⟨mkRat 2 5, mkRat 2 5⟩]⟩

/-- A ball at the center, wide enough to touch both squares. -/
def ballWedged : Ball := ⟨mkRat 1 2, mkRat 1 2, mkRat 1 100, 0, mkRat 1 8⟩

/-- A substep state holding the wedged ball. -/
def sWedged : SubState := ⟨ballWedged, true, false, []⟩

/-- A far-away target used when only obstacles matter. -/
def tgtFar : Target := ⟨⟨mkRat 9 10, mkRat 9 10⟩, mkRat 1 100⟩

/-- The ball `envFree.reset` installs. -/
def ballFree : Ball := ⟨mkRat 1 2, mkRat 1 2, 0, 0, mkRat 1 100⟩

/-- The ball `envHit.reset` installs. -/
def ballHit : Ball := ⟨mkRat 1 2, mkRat 1 2, 0, 0, mkRat 1 100⟩

/-! ## The obstacle scan -/

/-- The obstacle-scan fold either leaves its accumulator untouched (no
collision in the list) or increases the count and leaves the last
colliding obstacle of the list in the second component. -/
lemma countCollisions_foldl_spec (b : Ball) :
    ∀ (obs : List PolygonObstacle) (acc : ℕ × Option PolygonObstacle),
      (obs.foldl (fun a o => if o.collision b then (a.1 + 1, some o) else a) acc = acc) ∨
      (acc.1 < (obs.foldl (fun a o => if o.collision b then (a.1 + 1, some o) else a) acc).1 ∧
        ∃ c ∈ obs,
          (obs.foldl (fun a o => if o.collision b then (a.1 + 1, some o) else a) acc).2 = some c ∧
          c.collision b = true) := by
  intro obs
  induction obs with
  | nil => intro acc; exact Or.inl rfl
  | cons o rest ih =>
    intro acc
    by_cases hc : o.collision b = true
    · right
      rcases ih (acc.1 + 1, some o) with h1 | h2
      · simp only [List.foldl_cons, hc, if_true, h1]
        exact ⟨Nat.lt_succ_self _, o, List.mem_cons_self o rest, rfl, hc⟩
      · simp only [List.foldl_cons, hc, if_true]
        refine ⟨by omega, ?_⟩
        obtain ⟨c, hmem, hsnd, hcol⟩ := h2.2
        exact ⟨c, List.mem_cons_of_mem _ hmem, hsnd, hcol⟩
    · have hc0 : o.collision b = false := by
        cases h : o.collision b with
        | true => exact absurd h hc
        | false => rfl
      rcases ih acc with h1 | h2
      · left; simp only [List.foldl_cons, hc0, Bool.false_eq_true, if_false, h1]
      · right
        simp only [List.foldl_cons, hc0, Bool.false_eq_true, if_false]
        obtain ⟨c, hmem, hsnd, hcol⟩ := h2.2
        exact ⟨h2.1, c, List.mem_cons_of_mem _ hmem, hsnd, hcol⟩

/-- When the obstacle scan counts exactly one collision, the remembered
`collidor` is an obstacle of the list and it does collide with the ball. -/
lemma countCollisions_one (obs : List PolygonObstacle) (b : Ball) (c : PolygonObstacle)
    (h : countCollisions obs b = (1, some c)) :
    c ∈ obs ∧ c.collision b = true := by
  rcases countCollisions_foldl_spec b obs (0, none) with h1 | h2
  · rw [countCollisions] at h
    rw [h1] at h
    exact absurd (congrArg Prod.fst h) (by simp)
  · obtain ⟨c2, hmem, hsnd, hcol⟩ := h2.2
    rw [countCollisions] at h
    rw [h] at hsnd
    cases hsnd
    exact ⟨hmem, hcol⟩

/-! ## The collision dispatch -/

/-- More than one collision: the dispatch reverses the velocity and
records only the reversal; no reflection and no bonus step happen. -/
lemma resolve_multi (obs : List PolygonObstacle) (D i : ℕ) (b1 : Ball)
    (h : 1 < (countCollisions obs b1).1) :
    resolveCollisions obs D i b1 =
      (b1.set_velocity ⟨-b1.xdot, -b1.ydot⟩, [Ev.reverse i]) := by
  have h1 : ¬(countCollisions obs b1).1 = 1 := by omega
  simp only [resolveCollisions, h1, if_false, h, if_true]

/-- Exactly one collision, final substep: the dispatch reflects the
velocity off the collidor and performs the bonus full step. -/
lemma resolve_single_final (obs : List PolygonObstacle) (D i : ℕ) (b1 : Ball)
    (c : PolygonObstacle) (h : countCollisions obs b1 = (1, some c)) (hi : i = D - 1) :
    resolveCollisions obs D i b1 =
      ((b1.set_velocity (c.collision_effect b1)).stepFull,
        [Ev.reflect i, Ev.bonusStep i]) := by
  simp only [resolveCollisions, h, if_pos, hi, if_true]

/-- Exactly one collision, non-final substep: the dispatch reflects the
velocity off the collidor and performs no bonus step. -/
lemma resolve_single_nonfinal (obs : List PolygonObstacle) (D i : ℕ) (b1 : Ball)
    (c : PolygonObstacle) (h : countCollisions obs b1 = (1, some c)) (hi : ¬i = D - 1) :
    resolveCollisions obs D i b1 =
      (b1.set_velocity (c.collision_effect b1), [Ev.reflect i]) := by
  simp only [resolveCollisions, h, if_pos, hi, if_false]

/-- No collision: the dispatch does nothing. -/
lemma resolve_zero (obs : List PolygonObstacle) (D i : ℕ) (b1 : Ball)
    (h : (countCollisions obs b1).1 = 0) :
    resolveCollisions obs D i b1 = (b1, []) := by
  have h1 : ¬(countCollisions obs b1).1 = 1 := by omega
  have h2 : ¬1 < (countCollisions obs b1).1 := by omega
  simp only [resolveCollisions, h1, if_false, h2]

/-- Every event the dispatch records is a reflection, bonus step or
reversal at the current loop index. -/
lemma resolve_events (obs : List PolygonObstacle) (D i : ℕ) (b1 : Ball) :
    ∀ e ∈ (resolveCollisions obs D i b1).2,
      e = Ev.reflect i ∨ e = Ev.bonusStep i ∨ e = Ev.reverse i := by
  intro e he
  unfold resolveCollisions at he
  dsimp only at he
  split at he
  · split at he
    · split at he
      · simp only [List.mem_cons, List.not_mem_nil, or_false] at he
        rcases he with h | h
        · exact Or.inl h
        · exact Or.inr (Or.inl h)
      · simp only [List.mem_cons, List.not_mem_nil, or_false] at he
        exact Or.inl he
    · simp at he
  · split at he
    · simp only [List.mem_cons, List.not_mem_nil, or_false] at he
      exact Or.inr (Or.inr he)
    · simp at he

/-! ## Substep lemmas -/

/-- The trace written by one substep: the previous trace, the kinematic
substep event, then the dispatch events. -/
lemma substep_trace (obs : List PolygonObstacle) (tgt : Target) (D i : ℕ) (s : SubState) :
    (substep obs tgt D i s).trace =
      s.trace ++ (Ev.ballStep i :: (resolveCollisions obs D i (s.ball.stepSub D)).2) := rfl

/-- A substep's terminal flag is the target test on the substep's
resulting ball. -/
lemma substep_terminal (obs : List PolygonObstacle) (tgt : Target) (D i : ℕ) (s : SubState) :
    (substep obs tgt D i s).terminal = tgt.collision (substep obs tgt D i s).ball := rfl

/-- A terminal substep clears the reset flag. -/
lemma substep_reset_of_terminal (obs : List PolygonObstacle) (tgt : Target) (D i : ℕ)
    (s : SubState) (h : (substep obs tgt D i s).terminal = true) :
    (substep obs tgt D i s).reset_flag = false := by
  simp only [substep] at h ⊢
  rw [h]
  rfl

/-- A non-terminal substep keeps the reset flag. -/
lemma substep_reset_of_not_terminal (obs : List PolygonObstacle) (tgt : Target) (D i : ℕ)
    (s : SubState) (h : (substep obs tgt D i s).terminal = false) :
    (substep obs tgt D i s).reset_flag = s.reset_flag := by
  simp only [substep] at h ⊢
  rw [h]
  rfl

/-- The substep indices recorded by one substep: exactly one new index,
the current one. -/
lemma substep_ballIdx (obs : List PolygonObstacle) (tgt : Target) (D i : ℕ) (s : SubState) :
    ballIdx (substep obs tgt D i s).trace = ballIdx s.trace ++ [i] := by
  rw [substep_trace, ballIdx, List.filterMap_append, List.filterMap_cons]
  have h0 : (List.filterMap (fun e =>
      match e with
      | Ev.ballStep i => some i
      | _ => none) (resolveCollisions obs D i (s.ball.stepSub D)).2) = [] := by
    rw [List.filterMap_eq_nil_iff]
    intro e he
    rcases resolve_events obs D i (s.ball.stepSub D) e he with h | h | h <;> rw [h]
  rw [h0]
  rfl

/-- Every event a substep appends is a per-substep ball operation. -/
lemma substep_events (obs : List PolygonObstacle) (tgt : Target) (D i : ℕ) (s : SubState) :
    ∀ e ∈ Ev.ballStep i :: (resolveCollisions obs D i (s.ball.stepSub D)).2,
      isLoopEv e = true := by
  intro e he
  rcases List.mem_cons.1 he with h | h
  · rw [h]; rfl
  · rcases resolve_events obs D i (s.ball.stepSub D) e h with h2 | h2 | h2 <;> rw [h2] <;> rfl

/-! ## The substep loop -/

/-- The loop only appends per-substep ball operations to the trace. -/
lemma runSubsteps_delta (obs : List PolygonObstacle) (tgt : Target) (D : ℕ) :
    ∀ (fuel i : ℕ) (s : SubState),
      ∃ δ, (runSubsteps obs tgt D fuel i s).trace = s.trace ++ δ ∧
        ∀ e ∈ δ, isLoopEv e = true := by
  intro fuel
  induction fuel with
  | zero => intro i s; exact ⟨[], (List.append_nil _).symm, by simp⟩
  | succ n ih =>
    intro i s
    rw [runSubsteps]
    by_cases ht : (substep obs tgt D i s).terminal = true
    · rw [if_pos ht]
      exact ⟨Ev.ballStep i :: (resolveCollisions obs D i (s.ball.stepSub D)).2,
        substep_trace obs tgt D i s, substep_events obs tgt D i s⟩
    · rw [if_neg ht]
      obtain ⟨δ, hδ, hall⟩ := ih (i + 1) (substep obs tgt D i s)
      refine ⟨(Ev.ballStep i :: (resolveCollisions obs D i (s.ball.stepSub D)).2) ++ δ, ?_, ?_⟩
      · rw [hδ, substep_trace, List.append_assoc]
      · intro e he
        rcases List.mem_append.1 he with h | h
        · exact substep_events obs tgt D i s e h
        · exact hall e h

/-- Shifting a range of loop indices by one starting index. -/
lemma range_map_shift (i n : ℕ) :
    (List.range (n + 1)).map (i + ·) = i :: (List.range n).map (i + 1 + ·) := by
  rw [List.range_succ_eq_map, List.map_cons, List.map_map]
  refine congrArg₂ _ (Nat.add_zero i) (congrFun (congrArg _ ?_) _)
  funext x
  simp only [Function.comp_apply, Nat.succ_eq_add_one]
  omega

/-- The behaviour of the substep loop, entered with a clear terminal
flag: if it finishes non-terminal it ran every remaining substep in
order and kept the reset flag; if it finishes terminal it stopped right
after some substep `k` within the budget, the target test holds on the
resulting ball, and the reset flag is cleared. -/
lemma runSubsteps_spec (obs : List PolygonObstacle) (tgt : Target) (D : ℕ) :
    ∀ (fuel i : ℕ) (s : SubState), s.terminal = false →
      ((runSubsteps obs tgt D fuel i s).terminal = false →
        ballIdx (runSubsteps obs tgt D fuel i s).trace =
          ballIdx s.trace ++ (List.range fuel).map (i + ·) ∧
        (runSubsteps obs tgt D fuel i s).reset_flag = s.reset_flag) ∧
      ((runSubsteps obs tgt D fuel i s).terminal = true →
        (runSubsteps obs tgt D fuel i s).reset_flag = false ∧
        tgt.collision (runSubsteps obs tgt D fuel i s).ball = true ∧
        ∃ k, k < fuel ∧
          ballIdx (runSubsteps obs tgt D fuel i s).trace =
            ballIdx s.trace ++ (List.range (k + 1)).map (i + ·)) := by
  intro fuel
  induction fuel with
  | zero =>
    intro i s hs
    rw [runSubsteps]
    refine ⟨fun _ => ⟨?_, rfl⟩, fun ht => absurd (hs ▸ ht) (by simp)⟩
    simp
  | succ n ih =>
    intro i s hs
    rw [runSubsteps]
    by_cases ht : (substep obs tgt D i s).terminal = true
    · rw [if_pos ht]
      refine ⟨fun hf => absurd (ht.symm.trans hf) (by simp), fun _ => ?_⟩
      refine ⟨substep_reset_of_terminal obs tgt D i s ht, ?_, 0, Nat.succ_pos n, ?_⟩
      · rw [← substep_terminal]; exact ht
      · rw [substep_ballIdx, List.range_succ, List.range_zero, List.nil_append, List.map_cons, List.map_nil, Nat.add_zero]
    · rw [if_neg ht]
      have ht0 : (substep obs tgt D i s).terminal = false := by
        cases h : (substep obs tgt D i s).terminal with
        | true => exact absurd h ht
        | false => rfl
      obtain ⟨hfin, hterm⟩ := ih (i + 1) (substep obs tgt D i s) ht0
      constructor
      · intro hf
        obtain ⟨hidx, hrf⟩ := hfin hf
        refine ⟨?_, hrf.trans (substep_reset_of_not_terminal obs tgt D i s ht0)⟩
        rw [hidx, substep_ballIdx, List.append_assoc, range_map_shift i n]
        rfl
      · intro htr
        obtain ⟨hrf, hcol, k, hk, hidx⟩ := hterm htr
        refine ⟨hrf, hcol, k + 1, by omega, ?_⟩
        rw [hidx, substep_ballIdx, List.append_assoc, range_map_shift i (k + 1)]
        rfl

/-! ## Step-level helper lemmas -/

/-- The predicate of `check_bounds` passes exactly when the center lies strictly inside
the open unit square. -/
lemma inBounds_iff (p : Point) :
    inBounds p = true ↔ (0 < p.x ∧ p.x < 1 ∧ 0 < p.y ∧ p.y < 1) := by
  simp [inBounds, Bool.and_eq_true, decide_eq_true_eq, and_assoc]

/-- Unfolding of a valid `step` call (reset flag set, known action, ball
present): impulse, substep loop, drag, bounds check. -/
lemma step_valid_cases (env : PynBall) (a : ℤ) (imp : ℚ × ℚ) (b0 : Ball)
    (h1 : env.reset_flag = true) (hA : ACTION_DICT a = some imp)
    (hb : env.ball = some b0) :
    env.step a =
      ({ env with
          ball := some ((runSubsteps env.obstacles env.target env.step_duration
              env.step_duration 0
              { ball := b0.add_impulse imp.1 imp.2, reset_flag := env.reset_flag,
                terminal := false,
                trace := [Ev.impulse imp.1 imp.2] }).ball.add_drag env.drag),
          reset_flag := (runSubsteps env.obstacles env.target env.step_duration
              env.step_duration 0
              { ball := b0.add_impulse imp.1 imp.2, reset_flag := env.reset_flag,
                terminal := false,
                trace := [Ev.impulse imp.1 imp.2] }).reset_flag },
        (runSubsteps env.obstacles env.target env.step_duration env.step_duration 0
            { ball := b0.add_impulse imp.1 imp.2, reset_flag := env.reset_flag,
              terminal := false,
              trace := [Ev.impulse imp.1 imp.2] }).trace ++ [Ev.dragApplied],
        if inBounds ((runSubsteps env.obstacles env.target env.step_duration
            env.step_duration 0
            { ball := b0.add_impulse imp.1 imp.2, reset_flag := env.reset_flag,
              terminal := false,
              trace := [Ev.impulse imp.1 imp.2] }).ball.add_drag env.drag).get_center
        then
          Except.ok
            ((((runSubsteps env.obstacles env.target env.step_duration
                env.step_duration 0
                { ball := b0.add_impulse imp.1 imp.2, reset_flag := env.reset_flag,
                  terminal := false,
                  trace := [Ev.impulse imp.1 imp.2] }).ball.add_drag env.drag).x,
              ((runSubsteps env.obstacles env.target env.step_duration
                env.step_duration 0
                { ball := b0.add_impulse imp.1 imp.2, reset_flag := env.reset_flag,
                  terminal := false,
                  trace := [Ev.impulse imp.1 imp.2] }).ball.add_drag env.drag).y,
              ((runSubsteps env.obstacles env.target env.step_duration
                env.step_duration 0
                { ball := b0.add_impulse imp.1 imp.2, reset_flag := env.reset_flag,
                  terminal := false,
                  trace := [Ev.impulse imp.1 imp.2] }).ball.add_drag env.drag).xdot,
              ((runSubsteps env.obstacles env.target env.step_duration
                env.step_duration 0
                { ball := b0.add_impulse imp.1 imp.2, reset_flag := env.reset_flag,
                  terminal := false,
                  trace := [Ev.impulse imp.1 imp.2] }).ball.add_drag env.drag).ydot),
              (if a = 4 then NOP_PENALTY else THRUST_PENALTY),
              (runSubsteps env.obstacles env.target env.step_duration
                env.step_duration 0
                { ball := b0.add_impulse imp.1 imp.2, reset_flag := env.reset_flag,
                  terminal := false,
                  trace := [Ev.impulse imp.1 imp.2] }).terminal)
        else Except.error StepError.outOfBounds) := by
  simp only [PynBall.step, h1, hA, hb, if_true]
  split <;> rfl

/-- The trace of a valid `step` call: the loop's trace followed by the
one drag event. -/
lemma step_trace_valid (env : PynBall) (a : ℤ) (imp : ℚ × ℚ) (b0 : Ball)
    (h1 : env.reset_flag = true) (hA : ACTION_DICT a = some imp)
    (hb : env.ball = some b0) :
    (env.step a).2.1 = (loopOut env imp b0).trace ++ [Ev.dragApplied] := by
  rw [step_valid_cases env a imp b0 h1 hA hb]
  rfl

/-- The environment returned by a valid `step` call: the loop's ball
with drag applied, and the loop's reset flag. -/
lemma step_env_valid (env : PynBall) (a : ℤ) (imp : ℚ × ℚ) (b0 : Ball)
    (h1 : env.reset_flag = true) (hA : ACTION_DICT a = some imp)
    (hb : env.ball = some b0) :
    (env.step a).1 =
      { env with
          ball := some ((loopOut env imp b0).ball.add_drag env.drag)
          reset_flag := (loopOut env imp b0).reset_flag } := by
  rw [step_valid_cases env a imp b0 h1 hA hb]
  rfl

/-- The result value of a valid `step` call: the state tuple, reward and
terminal flag when the post-drag ball is in bounds, the fatal bounds
error otherwise. -/
lemma step_res_valid (env : PynBall) (a : ℤ) (imp : ℚ × ℚ) (b0 : Ball)
    (h1 : env.reset_flag = true) (hA : ACTION_DICT a = some imp)
    (hb : env.ball = some b0) :
    (env.step a).2.2 =
      if inBounds ((loopOut env imp b0).ball.add_drag env.drag).get_center then
        Except.ok
          ((((loopOut env imp b0).ball.add_drag env.drag).x,
            ((loopOut env imp b0).ball.add_drag env.drag).y,
            ((loopOut env imp b0).ball.add_drag env.drag).xdot,
            ((loopOut env imp b0).ball.add_drag env.drag).ydot),
            (if a = 4 then NOP_PENALTY else THRUST_PENALTY),
            (loopOut env imp b0).terminal)
      else Except.error StepError.outOfBounds := by
  rw [step_valid_cases env a imp b0 h1 hA hb]
  rfl

/-- The substep indices of a trace distribute over concatenation. -/
lemma ballIdx_append (l1 l2 : List Ev) :
    ballIdx (l1 ++ l2) = ballIdx l1 ++ ballIdx l2 := by
  simp [ballIdx]

/-- The loop's trace starts with the impulse event, and everything after
it is a per-substep ball operation. -/
lemma loopOut_delta (env : PynBall) (imp : ℚ × ℚ) (b0 : Ball) :
    ∃ δ, (loopOut env imp b0).trace = Ev.impulse imp.1 imp.2 :: δ ∧
      ∀ e ∈ δ, isLoopEv e = true := by
  obtain ⟨δ, hδ, hall⟩ := runSubsteps_delta env.obstacles env.target env.step_duration
    env.step_duration 0
    { ball := b0.add_impulse imp.1 imp.2, reset_flag := env.reset_flag,
      terminal := false, trace := [Ev.impulse imp.1 imp.2] }
  exact ⟨δ, by simpa [loopOut] using hδ, hall⟩

/-- The substep loop of a valid step call: non-terminal means every
substep `0 .. step_duration - 1` ran and the reset flag is kept; terminal
means the loop stopped right after some substep `k`, the target test
holds on its ball, and the reset flag is cleared. -/
lemma loopOut_spec (env : PynBall) (imp : ℚ × ℚ) (b0 : Ball) :
    ((loopOut env imp b0).terminal = false →
      ballIdx (loopOut env imp b0).trace = List.range env.step_duration ∧
      (loopOut env imp b0).reset_flag = env.reset_flag) ∧
    ((loopOut env imp b0).terminal = true →
      (loopOut env imp b0).reset_flag = false ∧
      env.target.collision (loopOut env imp b0).ball = true ∧
      ∃ k, k < env.step_duration ∧
        ballIdx (loopOut env imp b0).trace = List.range (k + 1)) := by
  obtain ⟨hfin, hterm⟩ := runSubsteps_spec env.obstacles env.target env.step_duration
    env.step_duration 0
    { ball := b0.add_impulse imp.1 imp.2, reset_flag := env.reset_flag,
      terminal := false, trace := [Ev.impulse imp.1 imp.2] } rfl
  constructor
  · intro hf
    simp only [loopOut] at hf ⊢
    obtain ⟨hidx, hrf⟩ := hfin hf
    refine ⟨?_, hrf⟩
    rw [hidx]
    simp [ballIdx]
  · intro ht
    simp only [loopOut] at ht ⊢
    obtain ⟨hrf, hcol, k, hk, hidx⟩ := hterm ht
    refine ⟨hrf, hcol, k, hk, ?_⟩
    rw [hidx]
    simp [ballIdx]

/-! ## Claim theorems -/

/-- C2: in any substep in which more than one obstacle reports a
collision, the ball's velocity becomes the full reversal of its
pre-collision velocity, the position is the one the kinematic substep
produced (no bonus step), and the trace records no reflection: no
obstacle's `collision_effect` is applied. -/
theorem multi_collision_reversal (obs : List PolygonObstacle) (tgt : Target)
    (D i : ℕ) (s : SubState)
    (h : 1 < (countCollisions obs (s.ball.stepSub D)).1) :
    (substep obs tgt D i s).ball.xdot = -s.ball.xdot ∧
    (substep obs tgt D i s).ball.ydot = -s.ball.ydot ∧
    (substep obs tgt D i s).ball.x = (s.ball.stepSub D).x ∧
    (substep obs tgt D i s).ball.y = (s.ball.stepSub D).y ∧
    (substep obs tgt D i s).trace = s.trace ++ [Ev.ballStep i, Ev.reverse i] := by
  have hr := resolve_multi obs D i (s.ball.stepSub D) h
  refine ⟨?_, ?_, ?_, ?_, ?_⟩ <;> simp only [substep] <;> rw [hr] <;> rfl

/-- C2 witness: the center ball touches both squares, and the substep
reverses its velocity. -/
theorem multi_collision_reversal_witness :
    (1 < (countCollisions [sqAbove, sqBelow] (sWedged.ball.stepSub 1)).1) ∧
    (substep [sqAbove, sqBelow] tgtFar 1 0 sWedged).ball.xdot = -sWedged.ball.xdot ∧
    (substep [sqAbove, sqBelow] tgtFar 1 0 sWedged).ball.ydot = -sWedged.ball.ydot ∧
    (substep [sqAbove, sqBelow] tgtFar 1 0 sWedged).ball.x = (sWedged.ball.stepSub 1).x ∧
    (substep [sqAbove, sqBelow] tgtFar 1 0 sWedged).ball.y = (sWedged.ball.stepSub 1).y ∧
    (substep [sqAbove, sqBelow] tgtFar 1 0 sWedged).trace =
      sWedged.trace ++ [Ev.ballStep 0, Ev.reverse 0] :=
  ⟨by with_unfolding_all decide,
    multi_collision_reversal [sqAbove, sqBelow] tgtFar 1 0 sWedged
      (by with_unfolding_all decide)⟩

/-- C3: in any substep in which exactly one obstacle collides, that
obstacle is the remembered collidor, the new velocity is its
`collision_effect` result, and exactly on the final substep
(`i = step_duration - 1`) one bonus full-displacement step follows; no
bonus step is recorded on non-final substeps or when the collision count
differs from one. -/
theorem single_collision_reflection (obs : List PolygonObstacle) (tgt : Target)
    (D i : ℕ) (s : SubState) (c : PolygonObstacle)
    (h : countCollisions obs (s.ball.stepSub D) = (1, some c)) :
    c ∈ obs ∧ c.collision (s.ball.stepSub D) = true ∧
    (i = D - 1 →
      (substep obs tgt D i s).ball =
        ((s.ball.stepSub D).set_velocity (c.collision_effect (s.ball.stepSub D))).stepFull ∧
      (substep obs tgt D i s).trace =
        s.trace ++ [Ev.ballStep i, Ev.reflect i, Ev.bonusStep i]) ∧
    (i ≠ D - 1 →
      (substep obs tgt D i s).ball =
        (s.ball.stepSub D).set_velocity (c.collision_effect (s.ball.stepSub D)) ∧
      (substep obs tgt D i s).trace = s.trace ++ [Ev.ballStep i, Ev.reflect i]) ∧
    (∀ s2 : SubState, (countCollisions obs (s2.ball.stepSub D)).1 ≠ 1 →
      (substep obs tgt D i s2).trace = s2.trace ++ [Ev.ballStep i] ∨
      (substep obs tgt D i s2).trace = s2.trace ++ [Ev.ballStep i, Ev.reverse i]) := by
  obtain ⟨hmem, hcol⟩ := countCollisions_one obs (s.ball.stepSub D) c h
  refine ⟨hmem, hcol, ?_, ?_, ?_⟩
  · intro hi
    have hr := resolve_single_final obs D i (s.ball.stepSub D) c h hi
    exact ⟨by simp only [substep, hr], by simp only [substep_trace, hr]⟩
  · intro hi
    have hr := resolve_single_nonfinal obs D i (s.ball.stepSub D) c h hi
    exact ⟨by simp only [substep, hr], by simp only [substep_trace, hr]⟩
  · intro s2 hne
    rcases Nat.lt_or_ge (countCollisions obs (s2.ball.stepSub D)).1 2 with hlt | hge
    · left
      have h0 : (countCollisions obs (s2.ball.stepSub D)).1 = 0 := by omega
      rw [substep_trace, resolve_zero obs D i (s2.ball.stepSub D) h0]
    · right
      have h2 : 1 < (countCollisions obs (s2.ball.stepSub D)).1 := by omega
      rw [substep_trace, resolve_multi obs D i (s2.ball.stepSub D) h2]

/-- C3 witness: exactly the upper square collides, on the final substep,
so the reflection and the bonus step both happen. -/
theorem single_collision_reflection_witness :
    (countCollisions [sqAbove] (sWedged.ball.stepSub 1) = (1, some sqAbove)) ∧
    (sqAbove ∈ [sqAbove] ∧ sqAbove.collision (sWedged.ball.stepSub 1) = true ∧
    ((0 : ℕ) = 1 - 1 →
      (substep [sqAbove] tgtFar 1 0 sWedged).ball =
        ((sWedged.ball.stepSub 1).set_velocity
          (sqAbove.collision_effect (sWedged.ball.stepSub 1))).stepFull ∧
      (substep [sqAbove] tgtFar 1 0 sWedged).trace =
        sWedged.trace ++ [Ev.ballStep 0, Ev.reflect 0, Ev.bonusStep 0]) ∧
    ((0 : ℕ) ≠ 1 - 1 →
      (substep [sqAbove] tgtFar 1 0 sWedged).ball =
        (sWedged.ball.stepSub 1).set_velocity
          (sqAbove.collision_effect (sWedged.ball.stepSub 1)) ∧
      (substep [sqAbove] tgtFar 1 0 sWedged).trace =
        sWedged.trace ++ [Ev.ballStep 0, Ev.reflect 0]) ∧
    (∀ s2 : SubState, (countCollisions [sqAbove] (s2.ball.stepSub 1)).1 ≠ 1 →
      (substep [sqAbove] tgtFar 1 0 s2).trace = s2.trace ++ [Ev.ballStep 0] ∨
      (substep [sqAbove] tgtFar 1 0 s2).trace = s2.trace ++ [Ev.ballStep 0, Ev.reverse 0])) :=
  ⟨by with_unfolding_all decide,
    single_collision_reflection [sqAbove] tgtFar 1 0 sWedged sqAbove
      (by with_unfolding_all decide)⟩

/-- C10: calling `step` in the `Active` state with an action outside
`{0,1,2,3,4}` fails the `ACTION_DICT` lookup before applying any impulse
or running any substep: the environment is returned unchanged, no event
is traced, and the error is the lookup error. -/
theorem unknown_action_atomic (env : PynBall) (a : ℤ)
    (h1 : env.reset_flag = true) (h2 : a ∉ ([0, 1, 2, 3, 4] : List ℤ)) :
    ACTION_DICT a = none ∧
    env.step a = (env, [], Except.error StepError.badAction) := by
  simp only [List.mem_cons, List.not_mem_nil, or_false, not_or] at h2
  obtain ⟨n0, n1, n2, n3, n4⟩ := h2
  have hA : ACTION_DICT a = none := by
    simp only [ACTION_DICT, n0, n1, n2, n3, n4, if_false]
  refine ⟨hA, ?_⟩
  simp only [PynBall.step, h1, hA, if_true]

/-- C10 witness: action 7 on a freshly reset environment. -/
theorem unknown_action_atomic_witness :
    (envFree.reset_flag = true ∧ (7 : ℤ) ∉ ([0, 1, 2, 3, 4] : List ℤ)) ∧
    (ACTION_DICT 7 = none ∧
      envFree.step 7 = (envFree, [], Except.error StepError.badAction)) :=
  ⟨⟨by with_unfolding_all decide, by decide⟩,
    unknown_action_atomic envFree 7 (by with_unfolding_all decide) (by decide)⟩

/-- C5: `step` is valid only after a reset: a fresh environment has a
clear reset flag, `step` on a clear reset flag fails with the
invalid-state error without touching the environment, and every `reset`
sets the flag, satisfying the precondition again. -/
theorem step_requires_reset (cfg : Config) (env env2 : PynBall) (a : ℤ)
    (sb : Option Ball) (h : env.reset_flag = false) :
    (PynBall.init cfg).reset_flag = false ∧
    env.step a = (env, [], Except.error StepError.notReset) ∧
    (env2.reset sb).1.reset_flag = true := by
  refine ⟨rfl, ?_, ?_⟩
  · simp only [PynBall.step, h]
    rfl
  · cases sb <;> rfl

/-- C5 witness: stepping the un-reset fresh environment fails; resetting
it satisfies the precondition. -/
theorem step_requires_reset_witness :
    ((PynBall.init cfgFree).reset_flag = false) ∧
    ((PynBall.init cfgFree).reset_flag = false ∧
      (PynBall.init cfgFree).step 4 =
        (PynBall.init cfgFree, [], Except.error StepError.notReset) ∧
      ((PynBall.init cfgFree).reset none).1.reset_flag = true) :=
  ⟨rfl, step_requires_reset cfgFree (PynBall.init cfgFree) (PynBall.init cfgFree) 4 none rfl⟩

/-- C9: the environment is deterministic: two runs built from equal
configurations and fed equal action sequences produce equal reset states
and equal per-step trace/result sequences. -/
theorem step_deterministic (cfg1 cfg2 : Config) (acts1 acts2 : List ℤ)
    (hc : cfg1 = cfg2) (ha : acts1 = acts2) :
    runEpisode cfg1 acts1 = runEpisode cfg2 acts2 := by
  rw [hc, ha]

/-- C9 witness: the obstacle-free configuration with a two-action
sequence. -/
theorem step_deterministic_witness :
    (cfgFree = cfgFree ∧ ([0, 4] : List ℤ) = [0, 4]) ∧
    runEpisode cfgFree [0, 4] = runEpisode cfgFree [0, 4] :=
  ⟨⟨rfl, rfl⟩, step_deterministic cfgFree cfgFree [0, 4] [0, 4] rfl rfl⟩

/-- C1: every normally returning `step` call reports a ball center
strictly inside the open unit square; and whenever the post-drag ball
center violates `0 < x < 1 ∧ 0 < y < 1`, the call fails with the fatal
out-of-bounds error while the returned environment keeps the unadjusted
ball — no clamping. -/
theorem step_bounds (env : PynBall) (a : ℤ) (imp : ℚ × ℚ) (b0 : Ball)
    (h1 : env.reset_flag = true) (hA : ACTION_DICT a = some imp)
    (hb : env.ball = some b0) :
    (∀ st r t, (env.step a).2.2 = Except.ok (st, r, t) →
      0 < st.1 ∧ st.1 < 1 ∧ 0 < st.2.1 ∧ st.2.1 < 1) ∧
    (∀ b : Ball, (env.step a).1.ball = some b →
      ¬(0 < b.x ∧ b.x < 1 ∧ 0 < b.y ∧ b.y < 1) →
      (env.step a).2.2 = Except.error StepError.outOfBounds) := by
  constructor
  · intro st r t hok
    rw [step_res_valid env a imp b0 h1 hA hb] at hok
    split at hok
    · rename_i hB
      simp only [Except.ok.injEq, Prod.mk.injEq] at hok
      obtain ⟨hst, -⟩ := hok
      have hp := (inBounds_iff _).1 hB
      rw [← hst]
      exact ⟨hp.1, hp.2.1, hp.2.2.1, hp.2.2.2⟩
    · exact absurd hok (by simp)
  · intro b hball hnb
    have hball2 : some ((loopOut env imp b0).ball.add_drag env.drag) = some b := by
      rw [step_env_valid env a imp b0 h1 hA hb] at hball
      exact hball
    have hbb : b = (loopOut env imp b0).ball.add_drag env.drag :=
      (Option.some.inj hball2).symm
    subst hbb
    rw [step_res_valid env a imp b0 h1 hA hb]
    have hnottrue :
        ¬(inBounds ((loopOut env imp b0).ball.add_drag env.drag).get_center = true) := by
      intro hB
      exact hnb ((inBounds_iff _).1 hB)
    rw [if_neg hnottrue]

/-- C1 witness: a free-field NOP step succeeds and its reported center is
strictly inside the unit square. -/
theorem step_bounds_witness :
    (envFree.reset_flag = true ∧ ACTION_DICT 4 = some (0, 0) ∧
      envFree.ball = some ballFree) ∧
    ((∀ st r t, (envFree.step 4).2.2 = Except.ok (st, r, t) →
      0 < st.1 ∧ st.1 < 1 ∧ 0 < st.2.1 ∧ st.2.1 < 1) ∧
    (∀ b : Ball, (envFree.step 4).1.ball = some b →
      ¬(0 < b.x ∧ b.x < 1 ∧ 0 < b.y ∧ b.y < 1) →
      (envFree.step 4).2.2 = Except.error StepError.outOfBounds)) :=
  ⟨⟨by with_unfolding_all decide, by with_unfolding_all decide,
      by with_unfolding_all decide⟩,
    step_bounds envFree 4 (0, 0) ballFree (by with_unfolding_all decide)
      (by with_unfolding_all decide) (by with_unfolding_all decide)⟩

/-- C4: in a normally returning valid `step` call, a true terminal flag
means the reset flag was cleared (the environment awaits a reset), the
target test held on the loop's final ball, and the loop stopped right
after some substep `k < step_duration`; a false terminal flag means all
`step_duration` substeps ran, in order, and the reset flag is unchanged. -/
theorem target_terminates_step (env : PynBall) (a : ℤ) (imp : ℚ × ℚ) (b0 : Ball)
    (h1 : env.reset_flag = true) (hA : ACTION_DICT a = some imp)
    (hb : env.ball = some b0) :
    ∀ st r t, (env.step a).2.2 = Except.ok (st, r, t) →
      (t = true →
        (env.step a).1.reset_flag = false ∧
        env.target.collision (loopOut env imp b0).ball = true ∧
        ∃ k, k < env.step_duration ∧
          ballIdx (env.step a).2.1 = List.range (k + 1)) ∧
      (t = false →
        (env.step a).1.reset_flag = env.reset_flag ∧
        ballIdx (env.step a).2.1 = List.range env.step_duration) := by
  intro st r t hok
  rw [step_res_valid env a imp b0 h1 hA hb] at hok
  split at hok
  · rename_i hB
    simp only [Except.ok.injEq, Prod.mk.injEq] at hok
    obtain ⟨-, -, hterm⟩ := hok
    obtain ⟨hfin, htrm⟩ := loopOut_spec env imp b0
    have htr : ballIdx (env.step a).2.1 = ballIdx (loopOut env imp b0).trace := by
      rw [step_trace_valid env a imp b0 h1 hA hb, ballIdx_append]
      simp [ballIdx]
    have hrf : (env.step a).1.reset_flag = (loopOut env imp b0).reset_flag := by
      rw [step_env_valid env a imp b0 h1 hA hb]
    constructor
    · intro htt
      have hlt : (loopOut env imp b0).terminal = true := by rw [hterm, htt]
      obtain ⟨hr0, hcol, k, hk, hidx⟩ := htrm hlt
      exact ⟨hrf.trans hr0, hcol, k, hk, htr.trans hidx⟩
    · intro htf
      have hlf : (loopOut env imp b0).terminal = false := by rw [hterm, htf]
      obtain ⟨hidx, hr0⟩ := hfin hlf
      exact ⟨hrf.trans hr0, htr.trans hidx⟩
  · exact absurd hok (by simp)

/-- C4 witness: the free-field NOP step returns non-terminal, so both
substeps ran and the reset flag survives. -/
theorem target_terminates_step_witness :
    (envFree.reset_flag = true ∧ ACTION_DICT 4 = some (0, 0) ∧
      envFree.ball = some ballFree) ∧
    (∀ st r t, (envFree.step 4).2.2 = Except.ok (st, r, t) →
      (t = true →
        (envFree.step 4).1.reset_flag = false ∧
        envFree.target.collision (loopOut envFree (0, 0) ballFree).ball = true ∧
        ∃ k, k < envFree.step_duration ∧
          ballIdx (envFree.step 4).2.1 = List.range (k + 1)) ∧
      (t = false →
        (envFree.step 4).1.reset_flag = envFree.reset_flag ∧
        ballIdx (envFree.step 4).2.1 = List.range envFree.step_duration)) :=
  ⟨⟨by with_unfolding_all decide, by with_unfolding_all decide,
      by with_unfolding_all decide⟩,
    target_terminates_step envFree 4 (0, 0) ballFree (by with_unfolding_all decide)
      (by with_unfolding_all decide) (by with_unfolding_all decide)⟩

/-- C6: every normally returning valid `step` call rewards the NOP
penalty for action 4 and the thrust penalty for any other action,
whatever the collisions and the terminal flag; and the NOP penalty is
the smaller penalty. -/
theorem step_reward_mapping (env : PynBall) (a : ℤ) (imp : ℚ × ℚ) (b0 : Ball)
    (h1 : env.reset_flag = true) (hA : ACTION_DICT a = some imp)
    (hb : env.ball = some b0) :
    (∀ st r t, (env.step a).2.2 = Except.ok (st, r, t) →
      r = if a = 4 then NOP_PENALTY else THRUST_PENALTY) ∧
    THRUST_PENALTY < NOP_PENALTY := by
  constructor
  · intro st r t hok
    rw [step_res_valid env a imp b0 h1 hA hb] at hok
    split at hok
    · simp only [Except.ok.injEq, Prod.mk.injEq] at hok
      exact hok.2.1.symm
    · exact absurd hok (by simp)
  · norm_num [THRUST_PENALTY, NOP_PENALTY]

/-- C6 witness: a thrust step (action 0) on the free field earns the
thrust penalty. -/
theorem step_reward_mapping_witness :
    (envFree.reset_flag = true ∧ ACTION_DICT 0 = some (1, 0) ∧
      envFree.ball = some ballFree) ∧
    ((∀ st r t, (envFree.step 0).2.2 = Except.ok (st, r, t) →
      r = if (0 : ℤ) = 4 then NOP_PENALTY else THRUST_PENALTY) ∧
    THRUST_PENALTY < NOP_PENALTY) :=
  ⟨⟨by with_unfolding_all decide, by with_unfolding_all decide,
      by with_unfolding_all decide⟩,
    step_reward_mapping envFree 0 (1, 0) ballFree (by with_unfolding_all decide)
      (by with_unfolding_all decide) (by with_unfolding_all decide)⟩

/-- C7: every valid `step` call applies drag exactly once, as the very
last ball operation, after the substep loop — whether or not the loop
stopped early — and never inside a substep. -/
theorem drag_applied_once (env : PynBall) (a : ℤ) (imp : ℚ × ℚ) (b0 : Ball)
    (h1 : env.reset_flag = true) (hA : ACTION_DICT a = some imp)
    (hb : env.ball = some b0) :
    ((env.step a).2.1).count Ev.dragApplied = 1 ∧
    ((env.step a).2.1).getLast? = some Ev.dragApplied := by
  obtain ⟨δ, hδ, hall⟩ := loopOut_delta env imp b0
  have htr : (env.step a).2.1 =
      (Ev.impulse imp.1 imp.2 :: δ) ++ [Ev.dragApplied] := by
    rw [step_trace_valid env a imp b0 h1 hA hb, hδ]
  constructor
  · rw [htr, List.count_append, List.count_cons]
    have h0 : List.count Ev.dragApplied δ = 0 := by
      rw [List.count_eq_zero]
      intro hmem
      have := hall _ hmem
      simp [isLoopEv] at this
    simp [h0]
  · rw [htr]
    exact List.getLast?_concat _

/-- C7 witness: a NOP step that hits the target on the first substep and
stops the loop early still traces exactly one drag event, at the very
end. -/
theorem drag_applied_once_witness :
    (envHit.reset_flag = true ∧ ACTION_DICT 4 = some (0, 0) ∧
      envHit.ball = some ballHit) ∧
    (((envHit.step 4).2.1).count Ev.dragApplied = 1 ∧
      ((envHit.step 4).2.1).getLast? = some Ev.dragApplied) :=
  ⟨⟨by with_unfolding_all decide, by with_unfolding_all decide,
      by with_unfolding_all decide⟩,
    drag_applied_once envHit 4 (0, 0) ballHit (by with_unfolding_all decide)
      (by with_unfolding_all decide) (by with_unfolding_all decide)⟩

/-- C8: `ACTION_DICT` is exactly the fixed lookup
`0 ↦ (1,0), 1 ↦ (0,1), 2 ↦ (-1,0), 3 ↦ (0,-1), 4 ↦ (0,0)`, and every
valid `step` call applies the looked-up impulse to the ball exactly
once, as the very first ball operation, before any substep. -/
theorem action_impulse_mapping (env : PynBall) (a : ℤ) (imp : ℚ × ℚ) (b0 : Ball)
    (h1 : env.reset_flag = true) (hA : ACTION_DICT a = some imp)
    (hb : env.ball = some b0) :
    ((env.step a).2.1).head? = some (Ev.impulse imp.1 imp.2) ∧
    ((env.step a).2.1).countP isImpulseEv = 1 ∧
    ACTION_DICT 0 = some (1, 0) ∧ ACTION_DICT 1 = some (0, 1) ∧
    ACTION_DICT 2 = some (-1, 0) ∧ ACTION_DICT 3 = some (0, -1) ∧
    ACTION_DICT 4 = some (0, 0) := by
  obtain ⟨δ, hδ, hall⟩ := loopOut_delta env imp b0
  have htr : (env.step a).2.1 =
      Ev.impulse imp.1 imp.2 :: (δ ++ [Ev.dragApplied]) := by
    rw [step_trace_valid env a imp b0 h1 hA hb, hδ]
    rfl
  refine ⟨?_, ?_, rfl, rfl, rfl, rfl, rfl⟩
  · rw [htr]
    rfl
  · rw [htr, List.countP_cons, List.countP_append]
    have h0 : δ.countP isImpulseEv = 0 := by
      rw [List.countP_eq_zero]
      intro e hmem
      have := hall _ hmem
      cases e <;> simp_all [isLoopEv, isImpulseEv]
    simp [h0, isImpulseEv]

/-- C8 witness: a thrust step (action 0) traces the impulse `(1, 0)`
first and nothing else applies an impulse. -/
theorem action_impulse_mapping_witness :
    (envFree.reset_flag = true ∧ ACTION_DICT 0 = some (1, 0) ∧
      envFree.ball = some ballFree) ∧
    (((envFree.step 0).2.1).head? =
        some (Ev.impulse ((1 : ℚ), (0 : ℚ)).1 ((1 : ℚ), (0 : ℚ)).2) ∧
    ((envFree.step 0).2.1).countP isImpulseEv = 1 ∧
    ACTION_DICT 0 = some (1, 0) ∧ ACTION_DICT 1 = some (0, 1) ∧
    ACTION_DICT 2 = some (-1, 0) ∧ ACTION_DICT 3 = some (0, -1) ∧
    ACTION_DICT 4 = some (0, 0)) :=
  ⟨⟨by with_unfolding_all decide, by with_unfolding_all decide,
      by with_unfolding_all decide⟩,
    action_impulse_mapping envFree 0 (1, 0) ballFree (by with_unfolding_all decide)
      (by with_unfolding_all decide) (by with_unfolding_all decide)⟩

end PynBallEnv
